import Mathlib

/-!
Shallow embedding of the auth-api-starter credential lifecycle core.

The embedding follows the JavaScript source:
- `src/controllers/authController.js` : register, login, refreshToken,
  logout, logoutAll, getMe (Prisma store calls become explicit state
  passing over a `Store` of user rows and refresh-token rows).
- `src/middleware/auth.js` : authenticate (Bearer header handling).
- `src/utils/jwt.js` : parseDuration, getRefreshTokenExpiry.

HTTP responses are modelled as `Except ErrResp out`, where `ErrResp`
carries exactly the message string and status code the controller passes
to `errorResponse`.  Password hashing (bcrypt) and password comparison
are abstract function parameters; fresh UUIDs (user ids, token record
ids, refresh token values) and the current time are explicit parameters,
since in the source they come from `uuidv4()` and `Date.now()`.
-/

deriving instance DecidableEq for Except

/-- A user row, as stored by Prisma (`prisma.user`). The `password`
field holds the bcrypt hash. -/
structure User where
  id : String
  email : String
  password : String
  firstName : Option String
  lastName : Option String
  isActive : Bool
  createdAt : Int
  updatedAt : Int
deriving Repr, DecidableEq

/-- A refresh-token row (`prisma.refreshToken`). -/
structure RefreshTokenRec where
  id : String
  token : String
  userId : String
  expiresAt : Int
  createdAt : Int
deriving Repr, DecidableEq

/-- The persistent store: the two Prisma tables used by the controller. -/
structure Store where
  users : List User
  tokens : List RefreshTokenRec
deriving Repr, DecidableEq

/-- An `errorResponse(res, message, status)` call: message and HTTP status. -/
structure ErrResp where
  message : String
  status : Nat
deriving Repr, DecidableEq

/-- The user projection returned by register and login
(`select` / hand-built `userResponse`): no `password` field. -/
structure UserView where
  id : String
  email : String
  firstName : Option String
  lastName : Option String
  isActive : Bool
  createdAt : Int
deriving Repr, DecidableEq

/-- The user projection returned by `getMe` (adds `updatedAt`);
still no `password` field. -/
structure MeView where
  id : String
  email : String
  firstName : Option String
  lastName : Option String
  isActive : Bool
  createdAt : Int
  updatedAt : Int
deriving Repr, DecidableEq

/-- The claim set signed into an access token:
`generateAccessToken({ id, email })`. -/
structure AccessTokenPayload where
  id : String
  email : String
deriving Repr, DecidableEq

/-- The identity attached to the request on successful authentication
(`req.user = { id, email }`). -/
structure Identity where
  id : String
  email : String
deriving Repr, DecidableEq

/-- Successful register/login payload:
`{ user, accessToken, refreshToken }`. -/
structure AuthOkOut where
  user : UserView
  accessToken : AccessTokenPayload
  refreshToken : String
deriving Repr, DecidableEq

/-- Successful refresh payload: `{ accessToken, refreshToken }`. -/
structure RefreshOut where
  accessToken : AccessTokenPayload
  refreshToken : String
deriving Repr, DecidableEq

def toUserView (u : User) : UserView :=
  { id := u.id, email := u.email, firstName := u.firstName,
    lastName := u.lastName, isActive := u.isActive, createdAt := u.createdAt }

def toMeView (u : User) : MeView :=
  { id := u.id, email := u.email, firstName := u.firstName,
    lastName := u.lastName, isActive := u.isActive,
    createdAt := u.createdAt, updatedAt := u.updatedAt }

/-- `generateAccessToken({id, email})` from `utils/jwt.js`: the payload
that gets signed (signing itself is outside the embedded data). -/
def generateAccessToken (p : AccessTokenPayload) : AccessTokenPayload := p

/-- Millisecond factor of a duration unit: the `units` table of
`parseDuration` in `utils/jwt.js`. -/
def unitMs (c : Char) : Option Nat :=
  if c = 's' then some 1000
  else if c = 'm' then some (60 * 1000)
  else if c = 'h' then some (60 * 60 * 1000)
  else if c = 'd' then some (24 * 60 * 60 * 1000)
  else none

/-- `parseInt(digits, 10)` on a string of decimal digits. -/
def digitsToNat (ds : List Char) : Nat :=
  ds.foldl (fun a c => a * 10 + (c.toNat - 48)) 0

/-- `parseDuration` from `utils/jwt.js`: matches `^(\d+)([smhd])$`;
on a match returns value times unit factor, otherwise the 7-day
default `7 * 24 * 60 * 60 * 1000`. -/
def parseDuration (duration : String) : Nat :=
  let cs := duration.toList
  match cs.getLast? with
  | none => 7 * 24 * 60 * 60 * 1000
  | some u =>
    match unitMs u with
    | none => 7 * 24 * 60 * 60 * 1000
    | some m =>
      let ds := cs.dropLast
      if ds ≠ [] ∧ ds.all Char.isDigit then digitsToNat ds * m
      else 7 * 24 * 60 * 60 * 1000

/-- `getRefreshTokenExpiry` from `utils/jwt.js`:
`new Date(Date.now() + parseDuration(config.jwt.refreshExpiresIn))`. -/
def getRefreshTokenExpiry (now : Int) (refreshExpiresIn : String) : Int :=
  now + (parseDuration refreshExpiresIn : Int)

/-- JavaScript `string.split(sep)` for a one-character separator,
on character lists (kernel-computable rendering of `String.splitOn`). -/
def splitOnChar (sep : Char) : List Char → List (List Char)
  | [] => [[]]
  | c :: rest =>
    let r := splitOnChar sep rest
    if c = sep then [] :: r
    else
      match r with
      | [] => [[c]]
      | g :: gs => (c :: g) :: gs

/-- JavaScript `string.toLowerCase()` (ASCII case folding, as the
source uses it on emails). -/
def toLowerStr (s : String) : String :=
  String.mk (s.toList.map Char.toLower)

/-- One chunk of the email regex `^[^\s@]+@[^\s@]+\.[^\s@]+$`:
all characters are neither whitespace nor `@`. -/
def noWsNoAt (cs : List Char) : Bool :=
  cs.all (fun c => !c.isWhitespace && c != '@')

/-- `emailRegex.test(email)` for `/^[^\s@]+@[^\s@]+\.[^\s@]+$/`:
exactly one `@`, a nonempty local part, and a domain that is nonempty,
free of whitespace, and has a dot that is neither its first nor its
last character. -/
def emailRegexTest (e : String) : Bool :=
  match splitOnChar '@' e.toList with
  | [loc, dom] =>
    !loc.isEmpty && noWsNoAt loc &&
    !dom.isEmpty && noWsNoAt dom &&
    (dom.drop 1).dropLast.contains '.'
  | _ => false

/-- `firstName || null` / `lastName || null`: a falsy (empty) value
becomes null. -/
def normOpt (o : Option String) : Option String :=
  match o with
  | some s => if s = "" then none else some s
  | none => none

/-- `register` from `authController.js`.  `hashPw` stands for
`bcrypt.hash` (salt generation included), `freshUserId` for the id
Prisma assigns, `freshTokId` for the refresh-token row id, and
`freshRefresh` for the `uuidv4()` refresh token value. -/
def register (hashPw : String → String)
    (freshUserId freshTokId freshRefresh : String) (now : Int)
    (refreshExpiresIn : String) (st : Store)
    (email password : String) (firstName lastName : Option String) :
    Except ErrResp AuthOkOut × Store :=
  if email = "" ∨ password = "" then
    (Except.error ⟨"Email and password are required", 400⟩, st)
  else if ¬ emailRegexTest email then
    (Except.error ⟨"Invalid email format", 400⟩, st)
  else if password.length < 8 then
    (Except.error ⟨"Password must be at least 8 characters long", 400⟩, st)
  else
    match st.users.find? (fun u => u.email == toLowerStr email) with
    | some _ =>
      (Except.error ⟨"User with this email already exists", 409⟩, st)
    | none =>
      let u : User :=
        { id := freshUserId, email := toLowerStr email,
          password := hashPw password,
          firstName := normOpt firstName, lastName := normOpt lastName,
          isActive := true, createdAt := now, updatedAt := now }
      let tokRec : RefreshTokenRec :=
        { id := freshTokId, token := freshRefresh, userId := u.id,
          expiresAt := getRefreshTokenExpiry now refreshExpiresIn,
          createdAt := now }
      (Except.ok
        { user := toUserView u,
          accessToken := generateAccessToken ⟨u.id, u.email⟩,
          refreshToken := freshRefresh },
       { st with users := st.users ++ [u], tokens := st.tokens ++ [tokRec] })

/-- `login` from `authController.js`.  `cmp` stands for
`bcrypt.compare(plaintext, storedHash)`. -/
def login (cmp : String → String → Bool)
    (freshTokId freshRefresh : String) (now : Int)
    (refreshExpiresIn : String) (st : Store) (email password : String) :
    Except ErrResp AuthOkOut × Store :=
  if email = "" ∨ password = "" then
    (Except.error ⟨"Email and password are required", 400⟩, st)
  else
    match st.users.find? (fun u => u.email == toLowerStr email) with
    | none => (Except.error ⟨"Invalid email or password", 401⟩, st)
    | some u =>
      if ¬ u.isActive then
        (Except.error ⟨"Account is deactivated", 403⟩, st)
      else if ¬ cmp password u.password then
        (Except.error ⟨"Invalid email or password", 401⟩, st)
      else
        let tokRec : RefreshTokenRec :=
          { id := freshTokId, token := freshRefresh, userId := u.id,
            expiresAt := getRefreshTokenExpiry now refreshExpiresIn,
            createdAt := now }
        (Except.ok
          { user := toUserView u,
            accessToken := generateAccessToken ⟨u.id, u.email⟩,
            refreshToken := freshRefresh },
         { st with tokens := st.tokens ++ [tokRec] })

/-- The `prisma.$transaction([delete old row, create new row])` of
`refreshToken` (authController.js lines 244-255), the store's atomic
rotation primitive: if the old row is absent the delete raises P2025 and
the whole transaction rolls back; if the new token value collides with
an existing row the create raises P2002 and the whole transaction rolls
back; otherwise both effects apply together.  The error responses are
the ones the global error handler produces for P2025 / P2002. -/
def rotateLongLivedToken (st : Store) (oldId : String)
    (newRec : RefreshTokenRec) : Except ErrResp Unit × Store :=
  if st.tokens.any (fun r => r.id == oldId) then
    let remaining := st.tokens.filter (fun r => r.id != oldId)
    if remaining.any (fun r => r.token == newRec.token) then
      (Except.error ⟨"A record with this value already exists", 409⟩, st)
    else
      (Except.ok (), { st with tokens := remaining ++ [newRec] })
  else
    (Except.error ⟨"Record not found", 404⟩, st)

/-- `refreshToken` from `authController.js`: look up the presented
value, lazily delete it when expired, refuse inactive owners, then
atomically rotate.  A token row whose owner is missing would make
`storedToken.user.isActive` throw in the source; the global error
handler turns that into a 500. -/
def refreshToken (freshTokId freshRefresh : String) (now : Int)
    (refreshExpiresIn : String) (st : Store) (token : String) :
    Except ErrResp RefreshOut × Store :=
  if token = "" then
    (Except.error ⟨"Refresh token is required", 400⟩, st)
  else
    match st.tokens.find? (fun r => r.token == token) with
    | none => (Except.error ⟨"Invalid refresh token", 401⟩, st)
    | some storedToken =>
      if now > storedToken.expiresAt then
        (Except.error ⟨"Refresh token has expired", 401⟩,
         { st with tokens := st.tokens.filter (fun r => r.id != storedToken.id) })
      else
        match st.users.find? (fun u => u.id == storedToken.userId) with
        | none => (Except.error ⟨"Internal Server Error", 500⟩, st)
        | some owner =>
          if ¬ owner.isActive then
            (Except.error ⟨"Account is deactivated", 403⟩, st)
          else
            let newRec : RefreshTokenRec :=
              { id := freshTokId, token := freshRefresh, userId := owner.id,
                expiresAt := getRefreshTokenExpiry now refreshExpiresIn,
                createdAt := now }
            match rotateLongLivedToken st storedToken.id newRec with
            | (Except.ok _, st1) =>
              (Except.ok
                { accessToken := generateAccessToken ⟨owner.id, owner.email⟩,
                  refreshToken := freshRefresh }, st1)
            | (Except.error e, st1) => (Except.error e, st1)

/-- `logout` from `authController.js`:
`deleteMany({ where: { token } })`, success unconditionally once the
body carries a token value. -/
def logout (st : Store) (token : String) : Except ErrResp Unit × Store :=
  if token = "" then
    (Except.error ⟨"Refresh token is required", 400⟩, st)
  else
    (Except.ok (), { st with tokens := st.tokens.filter (fun r => r.token != token) })

/-- `logoutAll` from `authController.js`:
`deleteMany({ where: { userId } })`. -/
def logoutAll (st : Store) (userId : String) : Except ErrResp Unit × Store :=
  (Except.ok (), { st with tokens := st.tokens.filter (fun r => r.userId != userId) })

/-- `getMe` from `authController.js`: profile lookup with the
password-free `select`; pure read, no store mutation. -/
def getMe (st : Store) (userId : String) : Except ErrResp MeView :=
  match st.users.find? (fun u => u.id == userId) with
  | none => Except.error ⟨"User not found", 404⟩
  | some u => Except.ok (toMeView u)

/-- The outcomes of `verifyAccessToken` as the middleware's catch
distinguishes them: `TokenExpiredError`, `JsonWebTokenError`, anything
else. -/
inductive VerifyErr where
  | expired
  | jwtMalformed
  | other
deriving Repr, DecidableEq

/-- `authenticate` from `middleware/auth.js`, with `verify` standing
for `verifyAccessToken`.  The header is `Option String` (absent or
present); `if (!authHeader)` fires both when the header is absent and
when it is present but the empty string (falsy); the token is
`authHeader.split(' ')[1]`. -/
def authenticate (verify : String → Except VerifyErr AccessTokenPayload)
    (authHeader : Option String) : Except ErrResp Identity :=
  match authHeader with
  | none => Except.error ⟨"Access token is required", 401⟩
  | some h =>
    if h = "" then
      Except.error ⟨"Access token is required", 401⟩
    else if ¬ "Bearer ".toList.isPrefixOf h.toList then
      Except.error ⟨"Invalid token format. Use: Bearer <token>", 401⟩
    else
      let token := String.mk ((splitOnChar ' ' h.toList).getD 1 [])
      if token = "" then
        Except.error ⟨"Access token is required", 401⟩
      else
        match verify token with
        | Except.ok decoded => Except.ok ⟨decoded.id, decoded.email⟩
        | Except.error VerifyErr.expired =>
          Except.error ⟨"Access token has expired", 401⟩
        | Except.error VerifyErr.jwtMalformed =>
          Except.error ⟨"Invalid access token", 401⟩
        | Except.error VerifyErr.other =>
          Except.error ⟨"Authentication failed", 401⟩

/-- The duration strings accepted by the regex `^(\d+)([smhd])$` of
`parseDuration`: a nonempty digit sequence followed by one unit letter
(digit sequences may be `0` or carry leading zeros). -/
def durShape (s : String) : Prop :=
  ∃ ds u, ds ≠ [] ∧ (∀ c, c ∈ ds → c.isDigit = true) ∧
    (unitMs u).isSome = true ∧ s = String.mk (ds ++ [u])

/-- The stricter shape the claim describes: one positive integer
followed by one unit letter. -/
def posDurShape (s : String) : Prop :=
  ∃ ds u, ds ≠ [] ∧ (∀ c, c ∈ ds → c.isDigit = true) ∧
    0 < digitsToNat ds ∧ (unitMs u).isSome = true ∧
    s = String.mk (ds ++ [u])

/-! Helper lemmas. -/

lemma strMk_toList (s : String) : String.mk s.toList = s := rfl

lemma emailRegexTest_ne_empty {e : String} (h : emailRegexTest e = true) :
    e ≠ "" := by
  intro he
  rw [he] at h
  exact absurd h (by decide)

lemma pw_ne_empty {p : String} (h : 8 ≤ p.length) : p ≠ "" := by
  intro hp
  rw [hp] at h
  exact absurd h (by decide)

/-- A refresh with a value matching no stored record fails with the
invalid-refresh-token response and leaves the store unchanged. -/
lemma refreshToken_no_match (ftid frt : String) (now : Int) (cfg : String)
    (st : Store) (T : String) (hT : T ≠ "")
    (hnone : ∀ r, r ∈ st.tokens → r.token ≠ T) :
    refreshToken ftid frt now cfg st T
      = (Except.error ⟨"Invalid refresh token", 401⟩, st) := by
  have hfind : st.tokens.find? (fun r => r.token == T) = none := by
    rw [List.find?_eq_none]
    intro x hx
    simpa using hnone x hx
  simp only [refreshToken]
  rw [if_neg hT, hfind]

/-- In a store whose token values are pairwise distinct, two records
with the same value are the same record. -/
lemma token_value_inj {st : Store}
    (hwf : (st.tokens.map (fun r => r.token)).Nodup)
    {a b : RefreshTokenRec} (ha : a ∈ st.tokens) (hb : b ∈ st.tokens)
    (hab : a.token = b.token) : a = b :=
  List.inj_on_of_nodup_map hwf ha hb hab

/-! C7 : invalid input makes register fail fast with a 400, before and
without any store access. -/

/-- C7: if the email fails the regex or the password is shorter than 8,
`register` returns a 400 error, leaves the store unchanged, and its
result does not depend on the store at all (no store call is made). -/
theorem register_invalid_input_fail_fast
    (hashPw : String → String) (fuid ftid frt : String) (now : Int)
    (cfg : String) (st st2 : Store) (email password : String)
    (fn ln : Option String)
    (hbad : emailRegexTest email = false ∨ password.length < 8) :
    (∃ msg, register hashPw fuid ftid frt now cfg st email password fn ln
        = (Except.error ⟨msg, 400⟩, st)) ∧
    (register hashPw fuid ftid frt now cfg st email password fn ln).1
      = (register hashPw fuid ftid frt now cfg st2 email password fn ln).1 := by
  simp only [register]
  by_cases h0 : email = "" ∨ password = ""
  · rw [if_pos h0, if_pos h0]
    exact ⟨⟨"Email and password are required", rfl⟩, rfl⟩
  · rw [if_neg h0, if_neg h0]
    by_cases h1 : emailRegexTest email = true
    · have h2 : password.length < 8 := by
        cases hbad with
        | inl hb => rw [h1] at hb; cases hb
        | inr hb => exact hb
      have h1n : ¬ ¬ (emailRegexTest email = true) := not_not_intro h1
      rw [if_neg h1n, if_neg h1n, if_pos h2, if_pos h2]
      exact ⟨⟨"Password must be at least 8 characters long", rfl⟩, rfl⟩
    · rw [if_pos h1, if_pos h1]
      exact ⟨⟨"Invalid email format", rfl⟩, rfl⟩

theorem register_invalid_input_fail_fast_witness :
    ∃ msg, register (fun s => s) "u9" "r9" "t9" 0 "7d" ⟨[], []⟩
        "no-at-sign" "longpassword" none none
      = (Except.error ⟨msg, 400⟩, (⟨[], []⟩ : Store)) :=
  (register_invalid_input_fail_fast (fun s => s) "u9" "r9" "t9" 0 "7d"
    ⟨[], []⟩ ⟨[], []⟩ "no-at-sign" "longpassword" none none
    (Or.inl (by decide))).1

/-! C9 : no success payload carries the credential hash. -/

/-- C9: the account objects returned by register, login and getMe are
always the password-free projections (`toUserView` / `toMeView`) of a
stored account, and those projections are invariant under the stored
credential hash. -/
theorem outputs_never_contain_credential_hash :
    (∀ (u : User) (h : String),
        toUserView { u with password := h } = toUserView u) ∧
    (∀ (u : User) (h : String),
        toMeView { u with password := h } = toMeView u) ∧
    (∀ (hashPw : String → String) (fuid ftid frt : String) (now : Int)
        (cfg : String) (st : Store) (email password : String)
        (fn ln : Option String) (out : AuthOkOut) (st2 : Store),
        register hashPw fuid ftid frt now cfg st email password fn ln
          = (Except.ok out, st2) →
        ∃ u, u ∈ st2.users ∧ out.user = toUserView u) ∧
    (∀ (cmp : String → String → Bool) (ftid frt : String) (now : Int)
        (cfg : String) (st : Store) (email password : String)
        (out : AuthOkOut) (st2 : Store),
        login cmp ftid frt now cfg st email password = (Except.ok out, st2) →
        ∃ u, u ∈ st2.users ∧ out.user = toUserView u) ∧
    (∀ (st : Store) (userId : String) (v : MeView),
        getMe st userId = Except.ok v →
        ∃ u, u ∈ st.users ∧ v = toMeView u) := by
  refine ⟨fun u h => rfl, fun u h => rfl, ?_, ?_, ?_⟩
  · intro hashPw fuid ftid frt now cfg st email password fn ln out st2 hreg
    simp only [register] at hreg
    split at hreg
    · exact absurd hreg (by simp)
    · split at hreg
      · exact absurd hreg (by simp)
      · split at hreg
        · exact absurd hreg (by simp)
        · cases hfind : st.users.find? (fun u => u.email == toLowerStr email) with
          | some w =>
            rw [hfind] at hreg
            exact absurd hreg (by simp)
          | none =>
            rw [hfind] at hreg
            rw [Prod.mk.injEq] at hreg
            obtain ⟨ho, hs⟩ := hreg
            injection ho with ho
            refine ⟨{ id := fuid, email := toLowerStr email,
                      password := hashPw password, firstName := normOpt fn,
                      lastName := normOpt ln, isActive := true,
                      createdAt := now, updatedAt := now }, ?_, ?_⟩
            · rw [← hs]
              exact List.mem_append_right _ (List.mem_singleton_self _)
            · rw [← ho]
  · intro cmp ftid frt now cfg st email password out st2 hlog
    simp only [login] at hlog
    split at hlog
    · exact absurd hlog (by simp)
    · split at hlog
      · exact absurd hlog (by simp)
      · next u hfind =>
        split at hlog
        · exact absurd hlog (by simp)
        · split at hlog
          · exact absurd hlog (by simp)
          · rw [Prod.mk.injEq] at hlog
            obtain ⟨ho, hs⟩ := hlog
            injection ho with ho
            refine ⟨u, ?_, ?_⟩
            · rw [← hs]
              exact List.mem_of_find?_eq_some hfind
            · rw [← ho]
  · intro st userId v hget
    simp only [getMe] at hget
    cases hfind : st.users.find? (fun u => u.id == userId) with
    | none =>
      rw [hfind] at hget
      exact absurd hget (by simp)
    | some u =>
      rw [hfind] at hget
      injection hget with hget
      exact ⟨u, List.mem_of_find?_eq_some hfind, hget.symm⟩

theorem outputs_never_contain_credential_hash_witness :
    ∃ u, u ∈ (Store.mk
        [⟨"u1", "a@b.c", "HASH", none, none, true, 0, 0⟩] []).users ∧
      (MeView.mk "u1" "a@b.c" none none true 0 0) = toMeView u :=
  outputs_never_contain_credential_hash.2.2.2.2
    (Store.mk [⟨"u1", "a@b.c", "HASH", none, none, true, 0, 0⟩] [])
    "u1" (MeView.mk "u1" "a@b.c" none none true 0 0) (by decide)

/-! C8 : logout is unconditional and idempotent, removes every record
with the given value, and makes later refresh with it fail. -/

/-- C8: for a nonempty token value `T` (refresh token values are
`uuidv4()` strings, never empty), `logout` succeeds, removes every
record whose value is `T`, succeeds again on a second call without
further change, and a subsequent `refresh(T)` fails with the
invalid-refresh-token (InvalidCredentials) response. -/
theorem logout_unconditional_idempotent (st : Store) (T : String)
    (hT : T ≠ "") :
    (logout st T).1 = Except.ok () ∧
    (∀ r, r ∈ ((logout st T).2).tokens → r.token ≠ T) ∧
    logout ((logout st T).2) T = (Except.ok (), (logout st T).2) ∧
    (∀ ftid frt now cfg,
      refreshToken ftid frt now cfg ((logout st T).2) T
        = (Except.error ⟨"Invalid refresh token", 401⟩, (logout st T).2)) := by
  have hl : logout st T
      = (Except.ok (), { st with tokens := st.tokens.filter (fun r => r.token != T) }) := by
    simp only [logout]
    rw [if_neg hT]
  have hmem : ∀ r, r ∈ ((logout st T).2).tokens → r.token ≠ T := by
    intro r hr
    rw [hl] at hr
    have := (List.mem_filter.mp hr).2
    simpa using this
  refine ⟨by rw [hl], hmem, ?_, ?_⟩
  · rw [hl]
    simp only [logout]
    rw [if_neg hT]
    have : (st.tokens.filter (fun r => r.token != T)).filter (fun r => r.token != T)
        = st.tokens.filter (fun r => r.token != T) :=
      List.filter_eq_self.mpr (fun a ha => (List.mem_filter.mp ha).2)
    rw [Prod.mk.injEq]
    exact ⟨rfl, by rw [this]⟩
  · intro ftid frt now cfg
    exact refreshToken_no_match ftid frt now cfg _ T hT hmem

theorem logout_unconditional_idempotent_witness :
    (logout (Store.mk [] [⟨"r1", "tok1", "u1", 100, 0⟩]) "tok1").1
      = Except.ok () :=
  (logout_unconditional_idempotent
    (Store.mk [] [⟨"r1", "tok1", "u1", 100, 0⟩]) "tok1" (by decide)).1

/-! C5 : unknown email and wrong password produce the identical login
error. -/

/-- C5: a login whose (normalized) email matches no account and a login
that finds an active account but fails password verification return the
very same error response, the 401 invalid-email-or-password
(InvalidCredentials) message, so the caller cannot tell whether the
email is registered. -/
theorem login_failure_indistinguishable
    (cmp : String → String → Bool) (ftid frt : String) (now : Int)
    (cfg : String) (st : Store) (e1 p1 e2 p2 : String) (u : User)
    (h1e : e1 ≠ "") (h1p : p1 ≠ "")
    (h1 : st.users.find? (fun v => v.email == toLowerStr e1) = none)
    (h2e : e2 ≠ "") (h2p : p2 ≠ "")
    (h2 : st.users.find? (fun v => v.email == toLowerStr e2) = some u)
    (hact : u.isActive = true)
    (hcmp : cmp p2 u.password = false) :
    (login cmp ftid frt now cfg st e1 p1).1
      = (login cmp ftid frt now cfg st e2 p2).1 ∧
    (login cmp ftid frt now cfg st e1 p1).1
      = Except.error ⟨"Invalid email or password", 401⟩ := by
  have hA : login cmp ftid frt now cfg st e1 p1
      = (Except.error ⟨"Invalid email or password", 401⟩, st) := by
    simp only [login]
    rw [if_neg (by push_neg; exact ⟨h1e, h1p⟩), h1]
  have hB : login cmp ftid frt now cfg st e2 p2
      = (Except.error ⟨"Invalid email or password", 401⟩, st) := by
    simp only [login]
    rw [if_neg (by push_neg; exact ⟨h2e, h2p⟩)]
    split
    · next heq => rw [h2] at heq
    · next w heq =>
      rw [h2] at heq
      injection heq with heq
      subst heq
      rw [if_neg (not_not_intro hact), if_pos (by rw [hcmp]; decide)]
  exact ⟨by rw [hA, hB], by rw [hA]⟩

theorem login_failure_indistinguishable_witness :
    (login (fun _ _ => false) "r8" "t8" 0 "7d"
        (Store.mk [⟨"u1", "a@b.c", "HASH", none, none, true, 0, 0⟩] [])
        "no@x.y" "whatever1").1
      = Except.error ⟨"Invalid email or password", 401⟩ :=
  (login_failure_indistinguishable (fun _ _ => false) "r8" "t8" 0 "7d"
    (Store.mk [⟨"u1", "a@b.c", "HASH", none, none, true, 0, 0⟩] [])
    "no@x.y" "whatever1" "A@B.C" "wrongpass"
    ⟨"u1", "a@b.c", "HASH", none, none, true, 0, 0⟩
    (by decide) (by decide) (by decide) (by decide) (by decide) (by decide)
    (by decide) (by decide)).2

/-! C6 : registration is case-insensitively unique on email, and both
lookup and creation use the lowercase normalization. -/

/-- C6: with syntactically valid input, if any stored account holds the
lowercase normalization of the requested email (whatever the casing of
the input), `register` fails with the 409 duplicate-email response and
the store is unchanged (no account is created); and any successful
`register` stores and returns the lowercase normalization of the
input email. -/
theorem register_duplicate_email_case_insensitive
    (hashPw : String → String) (fuid ftid frt : String) (now : Int)
    (cfg : String) (st : Store) (email password : String)
    (fn ln : Option String)
    (hre : emailRegexTest email = true) (hpw : 8 ≤ password.length) :
    ((∃ u, u ∈ st.users ∧ u.email = toLowerStr email) →
      register hashPw fuid ftid frt now cfg st email password fn ln
        = (Except.error ⟨"User with this email already exists", 409⟩, st)) ∧
    (∀ out st2,
      register hashPw fuid ftid frt now cfg st email password fn ln
        = (Except.ok out, st2) →
      out.user.email = toLowerStr email ∧
      st2.users = st.users ++
        [{ id := fuid, email := toLowerStr email,
           password := hashPw password, firstName := normOpt fn,
           lastName := normOpt ln, isActive := true,
           createdAt := now, updatedAt := now }]) := by
  have hne : ¬ (email = "" ∨ password = "") := by
    push_neg
    exact ⟨emailRegexTest_ne_empty hre, pw_ne_empty hpw⟩
  constructor
  · rintro ⟨u, hu, hmail⟩
    have hsome : (st.users.find? (fun v => v.email == toLowerStr email)).isSome :=
      List.find?_isSome.mpr ⟨u, hu, by simp [hmail]⟩
    obtain ⟨w, hw⟩ := Option.isSome_iff_exists.mp hsome
    simp only [register]
    rw [if_neg hne, if_neg (not_not_intro hre),
      if_neg (Nat.not_lt.mpr hpw), hw]
  · intro out st2 hreg
    simp only [register] at hreg
    rw [if_neg hne, if_neg (not_not_intro hre),
      if_neg (Nat.not_lt.mpr hpw)] at hreg
    cases hfind : st.users.find? (fun v => v.email == toLowerStr email) with
    | some w =>
      rw [hfind] at hreg
      exact absurd hreg (by simp)
    | none =>
      rw [hfind] at hreg
      rw [Prod.mk.injEq] at hreg
      obtain ⟨ho, hs⟩ := hreg
      injection ho with ho
      constructor
      · rw [← ho]
        rfl
      · rw [← hs]

theorem register_duplicate_email_case_insensitive_witness :
    register (fun s => s) "u9" "r9" "t9" 0 "7d"
        (Store.mk [⟨"u1", "a@b.c", "HASH", none, none, true, 0, 0⟩] [])
        "A@B.c" "password1" none none
      = (Except.error ⟨"User with this email already exists", 409⟩,
         Store.mk [⟨"u1", "a@b.c", "HASH", none, none, true, 0, 0⟩] []) :=
  (register_duplicate_email_case_insensitive (fun s => s) "u9" "r9" "t9" 0 "7d"
    (Store.mk [⟨"u1", "a@b.c", "HASH", none, none, true, 0, 0⟩] [])
    "A@B.c" "password1" none none (by decide) (by decide)).1
    ⟨⟨"u1", "a@b.c", "HASH", none, none, true, 0, 0⟩, by decide, by decide⟩

/-! C2 : rotation is all-or-nothing. -/

/-- C2: `rotateLongLivedToken` (the embedded
`prisma.$transaction([delete, create])` of `refreshToken`) is atomic:
on success the resulting store holds the new record and no record with
the old id (given the new id is fresh), never both and never neither;
on any failure the store is returned unchanged. -/
theorem rotate_atomic_all_or_nothing (st : Store) (oldId : String)
    (newRec : RefreshTokenRec) (hid : newRec.id ≠ oldId) :
    (∀ st2, rotateLongLivedToken st oldId newRec = (Except.ok (), st2) →
      newRec ∈ st2.tokens ∧ ∀ r, r ∈ st2.tokens → r.id ≠ oldId) ∧
    (∀ e st2, rotateLongLivedToken st oldId newRec = (Except.error e, st2) →
      st2 = st) := by
  constructor
  · intro st2 hok
    simp only [rotateLongLivedToken] at hok
    split at hok
    · split at hok
      · exact absurd hok (by simp)
      · rw [Prod.mk.injEq] at hok
        obtain ⟨-, hs⟩ := hok
        rw [← hs]
        constructor
        · exact List.mem_append_right _ (List.mem_singleton_self _)
        · intro r hr
          rcases List.mem_append.mp hr with h | h
          · have hb := (List.mem_filter.mp h).2
            simpa using hb
          · rw [List.mem_singleton.mp h]
            exact hid
    · exact absurd hok (by simp)
  · intro e st2 herr
    simp only [rotateLongLivedToken] at herr
    split at herr
    · split at herr
      · rw [Prod.mk.injEq] at herr
        exact herr.2.symm
      · exact absurd herr (by simp)
    · rw [Prod.mk.injEq] at herr
      exact herr.2.symm

theorem rotate_atomic_all_or_nothing_witness :
    (⟨"r2", "tok2", "u1", 200, 0⟩ : RefreshTokenRec) ∈
      ((rotateLongLivedToken (Store.mk [] [⟨"r1", "tok1", "u1", 100, 0⟩])
          "r1" ⟨"r2", "tok2", "u1", 200, 0⟩).2).tokens :=
  ((rotate_atomic_all_or_nothing
      (Store.mk [] [⟨"r1", "tok1", "u1", 100, 0⟩]) "r1"
      ⟨"r2", "tok2", "u1", 200, 0⟩ (by decide)).1
    (Store.mk [] [⟨"r2", "tok2", "u1", 200, 0⟩]) (by decide)).1

/-! C3 : refresh on an expired record fails with the expired response,
deletes the record, and the value never validates again. -/

/-- C3: if the stored record for value `T` is strictly expired
(`now > expiresAt`), `refresh` fails with the 401 expired response and
deletes the record, and afterwards a refresh with `T` fails with the
401 invalid-refresh-token (not-found) response at every later time,
including times before the original expiry.  `hwf` is the store
invariant that token values are unique across records. -/
theorem refresh_expired_deletes_record
    (ftid frt : String) (now : Int) (cfg : String) (st : Store) (T : String)
    (hwf : (st.tokens.map (fun r => r.token)).Nodup)
    (hT : T ≠ "") (rec0 : RefreshTokenRec)
    (hfind : st.tokens.find? (fun r => r.token == T) = some rec0)
    (hexp : now > rec0.expiresAt) :
    refreshToken ftid frt now cfg st T
      = (Except.error ⟨"Refresh token has expired", 401⟩,
         { st with tokens := st.tokens.filter (fun r => r.id != rec0.id) }) ∧
    (∀ ftid2 frt2 now2 cfg2,
      refreshToken ftid2 frt2 now2 cfg2
          { st with tokens := st.tokens.filter (fun r => r.id != rec0.id) } T
        = (Except.error ⟨"Invalid refresh token", 401⟩,
           { st with tokens := st.tokens.filter (fun r => r.id != rec0.id) })) := by
  have hrec0T : rec0.token = T := by simpa using List.find?_some hfind
  constructor
  · simp only [refreshToken]
    rw [if_neg hT]
    split
    · next heq => exact absurd (hfind.symm.trans heq) (by simp)
    · next rec1 heq =>
      rw [hfind] at heq
      injection heq with heq
      subst heq
      rw [if_pos hexp]
  · intro ftid2 frt2 now2 cfg2
    apply refreshToken_no_match _ _ _ _ _ _ hT
    intro r hr
    have hr2 : r ∈ st.tokens.filter (fun q => q.id != rec0.id) := hr
    have hmem := (List.mem_filter.mp hr2).1
    have hbid : r.id ≠ rec0.id := by
      simpa using (List.mem_filter.mp hr2).2
    intro hrT
    have : r = rec0 :=
      token_value_inj hwf hmem (List.mem_of_find?_eq_some hfind)
        (by rw [hrT, hrec0T])
    exact hbid (by rw [this])

theorem refresh_expired_deletes_record_witness :
    refreshToken "r2" "tok2" 150 "7d"
        (Store.mk [⟨"u1", "a@b.c", "HASH", none, none, true, 0, 0⟩]
          [⟨"r1", "tok1", "u1", 100, 0⟩]) "tok1"
      = (Except.error ⟨"Refresh token has expired", 401⟩,
         { Store.mk [⟨"u1", "a@b.c", "HASH", none, none, true, 0, 0⟩]
            [⟨"r1", "tok1", "u1", 100, 0⟩] with
           tokens := [⟨"r1", "tok1", "u1", 100, 0⟩].filter
             (fun r => r.id != "r1") }) :=
  (refresh_expired_deletes_record "r2" "tok2" 150 "7d"
    (Store.mk [⟨"u1", "a@b.c", "HASH", none, none, true, 0, 0⟩]
      [⟨"r1", "tok1", "u1", 100, 0⟩]) "tok1"
    (by decide) (by decide) ⟨"r1", "tok1", "u1", 100, 0⟩
    (by decide) (by decide)).1

/-! C1 : a refresh token value is one-shot: a successful refresh
consumes it irrevocably. -/

/-- C1: if a refresh with value `T` succeeds, the resulting store holds
no record with value `T` (the old value is removed the instant the
rotation commits), so every subsequent `refresh(T)` against that store
fails with the 401 invalid-refresh-token (InvalidCredentials) response.
`hwf` is the store invariant that token values are unique; `hfresh`
says the freshly generated replacement value differs from `T` (a fresh
`uuidv4()`). -/
theorem refresh_one_shot_consumption
    (ftid frt : String) (now : Int) (cfg : String) (st : Store) (T : String)
    (hwf : (st.tokens.map (fun r => r.token)).Nodup)
    (hfresh : frt ≠ T)
    (out : RefreshOut) (st2 : Store)
    (hok : refreshToken ftid frt now cfg st T = (Except.ok out, st2)) :
    (∀ r, r ∈ st2.tokens → r.token ≠ T) ∧
    (∀ ftid2 frt2 now2 cfg2,
      refreshToken ftid2 frt2 now2 cfg2 st2 T
        = (Except.error ⟨"Invalid refresh token", 401⟩, st2)) := by
  simp only [refreshToken] at hok
  split at hok
  · exact absurd hok (by simp)
  · next hT =>
    split at hok
    · exact absurd hok (by simp)
    · next rec0 hfind =>
      split at hok
      · exact absurd hok (by simp)
      · next hexp =>
        split at hok
        · exact absurd hok (by simp)
        · next owner huser =>
          split at hok
          · exact absurd hok (by simp)
          · next hact =>
            split at hok
            · next val st1 hrot =>
              rw [Prod.mk.injEq] at hok
              obtain ⟨-, hs2⟩ := hok
              simp only [rotateLongLivedToken] at hrot
              split at hrot
              · split at hrot
                · exact absurd hrot (by simp)
                · rw [Prod.mk.injEq] at hrot
                  obtain ⟨-, hs1⟩ := hrot
                  have hrec0T : rec0.token = T := by
                    simpa using List.find?_some hfind
                  have hno : ∀ r, r ∈ st2.tokens → r.token ≠ T := by
                    intro r hr
                    rw [← hs2, ← hs1] at hr
                    rcases List.mem_append.mp hr with h | h
                    · have hmem := (List.mem_filter.mp h).1
                      have hbid : r.id ≠ rec0.id := by
                        simpa using (List.mem_filter.mp h).2
                      intro hrT
                      have : r = rec0 :=
                        token_value_inj hwf hmem
                          (List.mem_of_find?_eq_some hfind)
                          (by rw [hrT, hrec0T])
                      exact hbid (by rw [this])
                    · rw [List.mem_singleton.mp h]
                      exact hfresh
                  exact ⟨hno, fun ftid2 frt2 now2 cfg2 =>
                    refreshToken_no_match ftid2 frt2 now2 cfg2 st2 T hT hno⟩
              · exact absurd hrot (by simp)
            · next e st1 hrot => exact absurd hok (by simp)

theorem refresh_one_shot_consumption_witness :
    refreshToken "r3" "tok3" 60 "7d"
        (Store.mk [⟨"u1", "a@b.c", "HASH", none, none, true, 0, 0⟩]
          [⟨"r2", "tok2", "u1", 604800050, 50⟩]) "tok1"
      = (Except.error ⟨"Invalid refresh token", 401⟩,
         Store.mk [⟨"u1", "a@b.c", "HASH", none, none, true, 0, 0⟩]
          [⟨"r2", "tok2", "u1", 604800050, 50⟩]) :=
  (refresh_one_shot_consumption "r2" "tok2" 50 "7d"
    (Store.mk [⟨"u1", "a@b.c", "HASH", none, none, true, 0, 0⟩]
      [⟨"r1", "tok1", "u1", 100, 0⟩]) "tok1"
    (by decide) (by decide)
    (RefreshOut.mk ⟨"u1", "a@b.c"⟩ "tok2")
    (Store.mk [⟨"u1", "a@b.c", "HASH", none, none, true, 0, 0⟩]
      [⟨"r2", "tok2", "u1", 604800050, 50⟩])
    (by decide)).2 "r3" "tok3" 60 "7d"

/-! C4 : authenticate header dispatch.  The source classifies a header
consisting of exactly the prefix with an empty token segment
as a missing token, not a malformed one. -/

/-- C4 counterexample: the header value consisting of the prefix with
nothing after it is not of the shape prefix-plus-nonempty-token, yet
`authenticate` answers with the missing-token (MissingCredential)
response, not the malformed-format (MalformedCredential) response the
claim requires for every wrongly shaped header. -/
theorem authenticate_shape_claim_counterexample :
    (¬ ∃ t : List Char, t ≠ [] ∧
      "Bearer ".toList = "Bearer ".toList ++ t) ∧
    authenticate (fun _ => Except.error VerifyErr.jwtMalformed)
        (some "Bearer ")
      = Except.error ⟨"Access token is required", 401⟩ ∧
    ErrResp.mk "Access token is required" 401
      ≠ ErrResp.mk "Invalid token format. Use: Bearer <token>" 401 := by
  refine ⟨?_, by decide, by decide⟩
  rintro ⟨t, ht, he⟩
  have hl := congrArg List.length he
  rw [List.length_append] at hl
  have : t.length = 0 := by omega
  exact ht (List.length_eq_zero.mp this)

/-- C4 (amended): `authenticate` fails with the missing-token
(MissingCredential) response when the header is absent or is the
(falsy) empty string, and also when the header starts with the bearer
prefix but the following space-delimited token segment is empty; it
fails with the malformed-format (MalformedCredential) response when a
present nonempty header does not start with the bearer prefix; it
propagates the codec outcome otherwise — the expired response when
verification reports expiry — and on success yields exactly the
identity { id, email } of the verified token.  `authenticate` takes no
store argument: it never touches the store. -/
theorem authenticate_header_dispatch
    (verify : String → Except VerifyErr AccessTokenPayload) :
    (authenticate verify none
      = Except.error ⟨"Access token is required", 401⟩) ∧
    (authenticate verify (some "")
      = Except.error ⟨"Access token is required", 401⟩) ∧
    (∀ h, h ≠ "" → "Bearer ".toList.isPrefixOf h.toList = false →
      authenticate verify (some h)
        = Except.error ⟨"Invalid token format. Use: Bearer <token>", 401⟩) ∧
    (∀ h, "Bearer ".toList.isPrefixOf h.toList = true →
      String.mk ((splitOnChar ' ' h.toList).getD 1 []) = "" →
      authenticate verify (some h)
        = Except.error ⟨"Access token is required", 401⟩) ∧
    (∀ h tok, "Bearer ".toList.isPrefixOf h.toList = true →
      String.mk ((splitOnChar ' ' h.toList).getD 1 []) = tok → tok ≠ "" →
      (verify tok = Except.error VerifyErr.expired →
        authenticate verify (some h)
          = Except.error ⟨"Access token has expired", 401⟩) ∧
      (∀ c, verify tok = Except.ok c →
        authenticate verify (some h) = Except.ok ⟨c.id, c.email⟩)) := by
  have hpre_ne : ∀ h : String, "Bearer ".toList.isPrefixOf h.toList = true →
      h ≠ "" := by
    intro h hpre h0
    rw [h0] at hpre
    exact absurd hpre (by decide)
  refine ⟨rfl, rfl, ?_, ?_, ?_⟩
  · intro h hne hpre
    simp only [authenticate]
    rw [if_neg hne, if_pos (by rw [hpre]; decide)]
  · intro h hpre htok
    simp only [authenticate]
    rw [if_neg (hpre_ne h hpre), if_neg (by rw [hpre]; decide), htok,
      if_pos rfl]
  · intro h tok hpre htok hne
    constructor
    · intro hv
      simp only [authenticate]
      rw [if_neg (hpre_ne h hpre), if_neg (by rw [hpre]; decide), htok,
        if_neg hne, hv]
    · intro c hv
      simp only [authenticate]
      rw [if_neg (hpre_ne h hpre), if_neg (by rw [hpre]; decide), htok,
        if_neg hne, hv]

theorem authenticate_header_dispatch_witness :
    authenticate (fun _ => Except.error VerifyErr.expired)
        (some "Bearer sometoken")
      = Except.error ⟨"Access token has expired", 401⟩ :=
  ((authenticate_header_dispatch
      (fun _ => Except.error VerifyErr.expired)).2.2.2.2
    "Bearer sometoken" "sometoken" (by decide) (by decide) (by decide)).1
    rfl

/-! C10 : parseDuration falls back to the 7-day default on
non-matching strings.  The regex accepts any digit sequence, including
zero, so the claim restricted to positive integers is off by the zero
case. -/

/-- C10 counterexample: the string consisting of the digit zero and
the seconds unit is not one positive integer followed by a unit, yet
`parseDuration` returns `0`, not the 7-day default `604800000` the
claim requires for every string outside the positive-integer shape. -/
theorem parseDuration_positive_claim_counterexample :
    ¬ posDurShape "0s" ∧ parseDuration "0s" = 0 ∧ (0 : Nat) ≠ 604800000 := by
  refine ⟨?_, by decide, by decide⟩
  rintro ⟨ds, u, hne, hdig, hpos, hu, heq⟩
  have hdata : ds ++ [u] = ['0', 's'] := by
    have h2 := congrArg String.data heq
    exact h2.symm
  cases ds with
  | nil => exact hne rfl
  | cons c ds2 =>
    cases ds2 with
    | nil =>
      injection hdata with h1 h2
      injection h2 with h2 h3
      subst h1
      exact absurd hpos (by decide)
    | cons c2 ds3 =>
      have hl := congrArg List.length hdata
      simp [List.length_append] at hl

/-- C10 (amended): for every string outside the digit-sequence-plus-
unit shape `^(\d+)([smhd])$` (the digits may denote zero or carry
leading zeros), `parseDuration` returns the 7-day default 604800000
milliseconds; for a matching string it returns the parsed integer
times the unit factor; and `getRefreshTokenExpiry` is the current time
plus the parsed duration, so a malformed configured refresh lifetime
silently becomes now + 7 days. -/
theorem parseDuration_fallback_default (s : String) :
    (¬ durShape s → parseDuration s = 604800000) ∧
    (∀ ds u m, ds ≠ [] → (∀ c, c ∈ ds → c.isDigit = true) →
      unitMs u = some m → s = String.mk (ds ++ [u]) →
      parseDuration s = digitsToNat ds * m) ∧
    (∀ now : Int,
      getRefreshTokenExpiry now s = now + (parseDuration s : Int)) := by
  refine ⟨?_, ?_, fun now => rfl⟩
  · intro hn
    simp only [parseDuration]
    split
    · norm_num
    · next u heq =>
      split
      · norm_num
      · next m hum =>
        refine (if_neg ?_).trans (by norm_num)
        rintro ⟨hne, hall⟩
        apply hn
        refine ⟨s.toList.dropLast, u, hne, ?_, ?_, ?_⟩
        · intro c hc
          exact List.all_eq_true.mp hall c hc
        · rw [hum]
          rfl
        · have h1 : s.toList ≠ [] := by
            intro h0
            rw [h0] at heq
            exact absurd heq (by simp)
          have h4 : s.toList.getLast h1 = u := by
            have h5 := List.getLast?_eq_getLast s.toList h1
            rw [heq] at h5
            injection h5 with h5
            exact h5.symm
          have h2 : s.toList.dropLast ++ [u] = s.toList := by
            rw [← h4]
            exact List.dropLast_concat_getLast h1
          rw [h2, strMk_toList]
  · intro ds u m hne hdig hum heq
    subst heq
    simp only [parseDuration]
    split
    · next heq2 =>
      rw [show (String.mk (ds ++ [u])).toList = ds ++ [u] from rfl] at heq2
      rw [List.getLast?_concat] at heq2
      exact absurd heq2 (by simp)
    · next u2 heq2 =>
      rw [show (String.mk (ds ++ [u])).toList = ds ++ [u] from rfl] at heq2
      rw [List.getLast?_concat] at heq2
      injection heq2 with heq2
      subst heq2
      split
      · next hum2 =>
        rw [hum] at hum2
        exact absurd hum2 (by simp)
      · next m2 hum2 =>
        rw [hum] at hum2
        injection hum2 with hum2
        subst hum2
        rw [show (String.mk (ds ++ [u])).toList = ds ++ [u] from rfl,
          List.dropLast_concat]
        rw [if_pos ⟨hne, List.all_eq_true.mpr hdig⟩]

theorem parseDuration_fallback_default_witness :
    parseDuration "15m" = digitsToNat ['1', '5'] * (60 * 1000) :=
  (parseDuration_fallback_default "15m").2.1 ['1', '5'] 'm' (60 * 1000)
    (by decide) (by decide) (by decide) rfl
